import Mathlib

/-!
Shallow embedding of the OSWorld "Green" session-orchestration engine
(`src/green/app.py`, `src/green/result_writer.py`, `src/run_modes/runner.py`)
and proofs of the specification claims about its task sampler, its
interaction loop, and its artifact writer.

Python machine-level detail that the claims do not depend on (actual file
descriptors, HTTP transport, the CPython Mersenne-Twister internals, the
base64 codec internals) is abstracted into explicit function parameters;
everything the claims quantify over is translated from the source.
-/

namespace OSWorldGreen

/-! ### String helpers (substring test, case folding)

Python uses `"pat" in s`, `s.lower()`, `s.upper()`, `s.strip()`.
We implement the substring test over character lists so that it is
decidable and evaluable by `decide`. -/

/-- Test `charsHasPre pat cs` is true when `pat` is an initial segment of `cs`. -/
def charsHasPre : List Char → List Char → Bool
  | [], _ => true
  | _ :: _, [] => false
  | p :: ps, c :: cs => p == c && charsHasPre ps cs

/-- Test `charsContains pat cs` is true when `pat` occurs contiguously inside `cs`. -/
def charsContains (pat : List Char) : List Char → Bool
  | [] => charsHasPre pat []
  | c :: cs => charsHasPre pat (c :: cs) || charsContains pat cs

/-- Python `pat in s` (substring containment). -/
def strContains (s pat : String) : Bool :=
  charsContains pat.toList s.toList

/-- Python `s.lower()` (ASCII case folding suffices for the matched phrases). -/
def strLower (s : String) : String :=
  String.mk (s.toList.map Char.toLower)

/-- Python `s.upper()`. -/
def strUpper (s : String) : String :=
  String.mk (s.toList.map Char.toUpper)

/-- Python `s.strip()`: drop leading and trailing whitespace. -/
def strStrip (s : String) : String :=
  String.mk
    (((s.toList.dropWhile Char.isWhitespace).reverse.dropWhile
        Char.isWhitespace).reverse)

/-! ### Failure classification (`_classify_failure`, src/green/app.py) -/

/-- Embedding of `_classify_failure` in src/green/app.py: a pure function of the caught
error's message text, matched by substring over the lowercased message. -/
def classify_failure (msg : String) : String :=
  let m := strLower msg
  if strContains m "setup step" || strContains m "setup failed" then "env_setup"
  else if strContains m "white /act error" || strContains m "white agent" then "white_error"
  else if strContains m "unauthorized" then "unauthorized"
  else "runtime_error"

/-- True when the lowercased message matches one of the known phrases of
`_classify_failure`. -/
def known_phrase_hit (msg : String) : Bool :=
  let m := strLower msg
  strContains m "setup step" || strContains m "setup failed" ||
  strContains m "white /act error" || strContains m "white agent" ||
  strContains m "unauthorized"

/-! ### Task sampler data model -/

/-- A (domain, example id) pair, the unit of corpus selection. -/
abbrev TaskPair := String × String

/-- Association-list model of the OSWorld meta JSON: a mapping from domain
name to a list of example ids.  The list order models the corpus file's own
(insertion) ordering; a JSON object has no duplicate keys, which appears as a
`Nodup` hypothesis where a proof needs it. -/
abbrev Meta := List (String × List String)

/-- Python `meta[d]` through the association list (a JSON object has unique
keys, so `find?` returns the unique binding; absent keys yield `[]`). -/
def lookupIds (meta : Meta) (d : String) : List String :=
  match meta.find? (fun kv => kv.1 == d) with
  | some kv => kv.2
  | none => []

/-- Lexicographic order on (domain, id): by domain, then id. -/
def pairLe (a b : TaskPair) : Prop :=
  a.1 < b.1 ∨ (a.1 = b.1 ∧ a.2 ≤ b.2)

instance : DecidableRel pairLe := fun a b => by
  unfold pairLe; exact inferInstance

/-- Embedding of `_pairs_from_meta` in src/run_modes/runner.py:
`for d in sorted(meta.keys()): for ex in sorted(meta[d]): pairs.append((d, ex))`. -/
def pairs_from_meta (meta : Meta) : List TaskPair :=
  ((meta.map Prod.fst).insertionSort (· ≤ ·)).flatMap
    (fun d => ((lookupIds meta d).insertionSort (· ≤ ·)).map (fun ex => (d, ex)))

/-! ### Candidate flattening in `_choose_osworld_task` (src/green/app.py)

The green app's own sampler iterates `meta.items()` in the mapping's own
order and does not sort; ids are kept when they are nonempty after strip
and appended stripped. -/

/-- The candidate list built by `_choose_osworld_task` for a dict-shaped meta. -/
def app_candidates (meta : Meta) : List TaskPair :=
  meta.flatMap (fun kv =>
    (kv.2.filter (fun ex => strStrip ex ≠ "")).map
      (fun ex => (kv.1, strStrip ex)))

/-- The case-insensitive gdrive test of the app's `nogdrive` filter:
`"gdrive" in text or "google_drive" in text or "google-drive" in text`
over `text = f"{domain}/{ex_id}".lower()`. -/
def app_is_gdrive (p : TaskPair) : Bool :=
  let text := strLower (p.1 ++ "/" ++ p.2)
  strContains text "gdrive" || strContains text "google_drive" ||
  strContains text "google-drive"

/-- The app's best-effort `nogdrive` filter: keep the filtered list only when
it is nonempty, otherwise fall back to the unfiltered candidates. -/
def app_apply_nogdrive (nogdrive : Bool) (candidates : List TaskPair) :
    List TaskPair :=
  if nogdrive then
    let filtered := candidates.filter (fun p => !app_is_gdrive p)
    if filtered.isEmpty then candidates else filtered
  else candidates

/-- The random-mode selection of `_choose_osworld_task` (src/green/app.py):
build candidates, apply the best-effort nogdrive filter, then
`rng = random.Random(seed); rng.choice(candidates)`.

CPython's `random.Random(seed).choice` is a deterministic function of the
seed and of the candidate list length; it is abstracted as the parameter
`choice`, reduced modulo the length so that any instantiation is in range. -/
def choose_osworld_task (choice : Option Int → Nat → Nat) (seed : Option Int)
    (nogdrive : Bool) (meta : Meta) : Except String TaskPair :=
  let candidates := app_candidates meta
  if candidates.isEmpty then
    .error "Invalid or empty meta file"
  else
    let cands := app_apply_nogdrive nogdrive candidates
    .ok (cands.getD (choice seed cands.length % cands.length) ("", ""))

/-! ### Example configs and the runner's exclude predicate
(src/run_modes/runner.py) -/

/-- Semi-structured JSON value, as inspected by `_requires_gdrive`'s
`_hit` helper (strings, lists, dicts; anything else is opaque). -/
inductive JVal where
  | str : String → JVal
  | list : List JVal → JVal
  | dict : List (String × JVal) → JVal
  | other : JVal

mutual
/-- Embedding of `_hit(val)` in `_requires_gdrive`: a string hits when it mentions
`drive.google.com` or `docs.google.com/drive` (lowercased); lists and dicts
hit when any element / value hits. -/
def jHit : JVal → Bool
  | .str s =>
      strContains (strLower s) "drive.google.com" ||
      strContains (strLower s) "docs.google.com/drive"
  | .list xs => jHitList xs
  | .dict kvs => jHitDict kvs
  | .other => false

def jHitList : List JVal → Bool
  | [] => false
  | x :: xs => jHit x || jHitList xs

def jHitDict : List (String × JVal) → Bool
  | [] => false
  | kv :: kvs => jHit kv.2 || jHitDict kvs
end

/-- One setup/config step of an example config: a dict with an optional
`"type"` string and a `"parameters"` value; the default parameters value
is an empty dict, whose hit is false, modeled by `.dict []`. -/
structure Step where
  type : Option String
  parameters : JVal

/-- A loaded example config, as far as the runner's filters inspect it:
its `"setup"` and `"config"` step lists. -/
structure TaskCfg where
  setup : List Step
  config : List Step

/-- Embedding of `_step_list(cfg)`: `list(cfg.get("setup", []) or []) + list(cfg.get("config", []) or [])`. -/
def step_list (cfg : TaskCfg) : List Step :=
  cfg.setup ++ cfg.config

/-- Embedding of `_has_proxy_step(cfg)`: any step whose lowercased type contains "proxy". -/
def has_proxy_step (cfg : TaskCfg) : Bool :=
  (step_list cfg).any (fun st => strContains (strLower (st.type.getD "")) "proxy")

/-- Embedding of `_requires_gdrive(cfg, domain)` in src/run_modes/runner.py: the domain
name is a known gdrive domain, or some step's type mentions googledrive, or
some step's parameters hit the gdrive URL test. -/
def requires_gdrive (cfg : TaskCfg) (domain : String) : Bool :=
  let dl := strLower domain
  (dl == "googledrive" || dl == "google_drive" || dl == "google-drive" ||
   dl == "gdrive") ||
  (step_list cfg).any (fun st =>
    let t := strLower (st.type.getD "")
    strContains t "googledrive" || t == "gdrive" || t == "google_drive" ||
    jHit st.parameters)

/-- Embedding of `_should_skip(cfg, domain, skip_gdrive, skip_proxy)`: returns
(skip?, reason). -/
def should_skip (cfg : TaskCfg) (domain : String)
    (skip_gdrive skip_proxy : Bool) : Bool × String :=
  if skip_gdrive && requires_gdrive cfg domain then (true, "skip:googledrive")
  else if skip_proxy && has_proxy_step cfg then (true, "skip:proxy")
  else (false, "")

/-- The accepted-candidate collection loop of mode=random in
src/run_modes/runner.py `main`: scan the shuffled list in order, load each
candidate (`cfgOf` models `_load_example` over the fixed corpus snapshot),
drop it when `_should_skip` says so, append it otherwise, and break as soon
as `k` are collected. -/
def collect_runnable (cfgOf : TaskPair → TaskCfg) (skipG skipP : Bool) :
    Nat → List TaskPair → List TaskPair
  | _, [] => []
  | k, q :: rest =>
    if (should_skip (cfgOf q) q.1 skipG skipP).1 then
      collect_runnable cfgOf skipG skipP k rest
    else if k ≤ 1 then [q]
    else q :: collect_runnable cfgOf skipG skipP (k - 1) rest

/-- mode=random of src/run_modes/runner.py `main` (lines 212-234):
`--k` must be positive; `random.seed(seed); random.shuffle(list(all_pairs))`
is abstracted as the deterministic parameter `shuffle` (CPython's seeded
Mersenne-Twister shuffle is a function of the seed and the list); then the
collection loop; a fatal error only when nothing at all survived. -/
def random_mode_select (cfgOf : TaskPair → TaskCfg)
    (shuffle : Int → List TaskPair → List TaskPair)
    (meta : Meta) (seed : Int) (k : Nat) (nogdrive noproxy : Bool) :
    Except String (List TaskPair) :=
  if k = 0 then .error "--k must be positive for mode=random"
  else
    let allPairs := pairs_from_meta meta
    let shuffled := shuffle seed allPairs
    let pairs := collect_runnable cfgOf nogdrive noproxy k shuffled
    if pairs.isEmpty then
      .error "After applying filters, no runnable tasks remain in this slice."
    else .ok pairs

/-! ### Session orchestrator (`_act_core`, src/green/app.py) and artifact
writer (src/green/result_writer.py)

Rewards and clock readings are Python floats used only for assignment and
comparison; they are embedded as `Rat`, which is exact for those uses.
Exceptions are `Except` errors carrying the exception's message text and
the value of the `steps` counter at the moment of the raise. -/

/-- The observation dict returned by `OSWorldAdapter.reset/step/wait`
(the fields `_act_core` reads; the unused `info` dict of the step tuple is
omitted because the orchestrator never reads it). -/
structure EnvObs where
  screenshot_b64 : Option String
  a11y_tree : Option String
  width : Option Int
  height : Option Int

/-- Embedding of `WhiteAgentAction` of src/green/a2a_models.py: `type` is `"code"` or
`"special"`, `code`/`name` optional, `pause` defaults to 0.5 (never None). -/
structure WhiteAgentAction where
  type : String
  code : Option String
  name : Option String
  pause : Rat

/-- Python `action.pause or 0.5`: `0.0` is falsy, so a zero pause also
falls back to 0.5. -/
def pause_or_default (p : Rat) : Rat :=
  if p = 0 then (0.5 : Rat) else p

/-- Embedding of `ResultWriter.save_frame` (src/green/result_writer.py): a missing or
empty payload returns None at once; otherwise the base64 decode either
yields the bytes written to `frames/step_<idx>.png` or raises, which is
caught and turned into None with no file written.  The stdlib decoder
`base64.b64decode` is abstracted as the parameter `dec` (None = raise).
The function is total: it never raises. -/
def save_frame (dec : String → Option (List Nat)) (step_idx : Nat)
    (screenshot_b64 : Option String) : Option (Nat × List Nat) :=
  match screenshot_b64 with
  | none => none
  | some s =>
    if s = "" then none
    else
      match dec s with
      | none => none
      | some raw => some (step_idx, raw)

/-- The action dict logged by `_act_core`: the code text is truncated to
its first 160 characters (`action.code[:160]`). -/
def logged_action (a : WhiteAgentAction) : WhiteAgentAction :=
  { a with code := a.code.map (fun c => String.mk (c.toList.take 160)) }

/-- One record of `trace.jsonl`, as appended by `ResultWriter.log_step`:
`{t, action, result={reward, done}, timestamp}` (the wall-clock timestamp
carries no contract and is omitted). -/
structure StepRec where
  t : Nat
  action : WhiteAgentAction
  reward : Rat
  done : Bool

/-- The environment adapter as a state machine over an abstract state `σ`:
`wait` and `step` return (new state, observation, reward, done) or raise. -/
structure EnvModel (σ : Type) where
  wait : σ → Rat → Except String (σ × EnvObs × Rat × Bool)
  step : σ → String → Rat → Except String (σ × EnvObs × Rat × Bool)

/-- The fixed collaborators and budgets of one `_act_core` session.
`elapsed n` is the value of `time.time() - t0` sampled at the loop-condition
check performed after `n` completed iterations; `white n obs` is the
ActionProvider response (or error) for step index `n`. -/
structure SessionCfg (σ : Type) where
  maxSteps : Nat
  maxSeconds : Rat
  elapsed : Nat → Rat
  white : Nat → EnvObs → Except String WhiteAgentAction
  env : EnvModel σ
  dec : String → Option (List Nat)

/-- The mutable state of the interaction loop, together with the writer's
accumulated artifacts and a ghost counter of environment calls. -/
structure LoopSt (σ : Type) where
  steps : Nat
  obs : EnvObs
  done : Bool
  reward_final : Rat
  envSt : σ
  envCalls : Nat
  frames : List (Nat × List Nat)
  trace : List StepRec

/-- The directive dispatch of one loop iteration (src/green/app.py lines
496-513): WAIT waits `pause or 0.5`; DONE/FAIL sets `done=true, reward=0.0`
with no environment call; any other special name waits 0.5; a code directive
with nonempty code steps; anything else waits 0.5.  Returns (new env state,
observation, reward, done, env-call counter). -/
def dispatch {σ : Type} (cfg : SessionCfg σ) (st : LoopSt σ)
    (action : WhiteAgentAction) :
    Except String (σ × EnvObs × Rat × Bool × Nat) :=
  if action.type = "special" then
    let nm := strUpper (action.name.getD "")
    if nm = "WAIT" then
      (cfg.env.wait st.envSt (pause_or_default action.pause)).map
        (fun r => (r.1, r.2.1, r.2.2.1, r.2.2.2, st.envCalls + 1))
    else if nm = "DONE" ∨ nm = "FAIL" then
      .ok (st.envSt, st.obs, 0, true, st.envCalls)
    else
      (cfg.env.wait st.envSt (0.5 : Rat)).map
        (fun r => (r.1, r.2.1, r.2.2.1, r.2.2.2, st.envCalls + 1))
  else if action.type = "code" ∧ action.code.getD "" ≠ "" then
    (cfg.env.step st.envSt (action.code.getD "") (pause_or_default action.pause)).map
      (fun r => (r.1, r.2.1, r.2.2.1, r.2.2.2, st.envCalls + 1))
  else
    (cfg.env.wait st.envSt (0.5 : Rat)).map
      (fun r => (r.1, r.2.1, r.2.2.1, r.2.2.2, st.envCalls + 1))

/-- One iteration of the main loop of `_act_core`: increment `steps`, query
the white agent (a provider error is re-raised as
`HTTPException(502, "White /act error: ...")`, whose message text is
`"502: White /act error: ..."`), dispatch the directive, save the returned
observation's frame under the current step index, append one StepRecord,
and record the final reward when `done` became true.  Errors carry the
incremented step counter. -/
def iter {σ : Type} (cfg : SessionCfg σ) (st : LoopSt σ) :
    Except (String × Nat) (LoopSt σ) :=
  let steps := st.steps + 1
  match cfg.white steps st.obs with
  | .error e => .error ("502: White /act error: " ++ e, steps)
  | .ok action =>
    match dispatch cfg st action with
    | .error e => .error (e, steps)
    | .ok (envSt, obs, reward, done, calls) =>
      .ok { steps := steps
            obs := obs
            done := done
            reward_final := if done then reward else st.reward_final
            envSt := envSt
            envCalls := calls
            frames := st.frames ++ (save_frame cfg.dec steps obs.screenshot_b64).toList
            trace := st.trace ++
              [{ t := steps, action := logged_action action, reward := reward,
                 done := done }] }

/-- The loop guard of `_act_core`:
`steps < max_steps and (time.time() - t0) < max_seconds and not done`. -/
def loopCond {σ : Type} (cfg : SessionCfg σ) (st : LoopSt σ) : Bool :=
  decide (st.steps < cfg.maxSteps) &&
  decide (cfg.elapsed st.steps < cfg.maxSeconds) && !st.done

/-- The while loop of `_act_core`, with an explicit iteration budget: run
iterations while the guard holds; an exception aborts the loop.  Each
iteration increments `steps` by exactly one, so the loop terminates after at
most `maxSteps - steps` further iterations; `loop` below instantiates the
budget with exactly that number, which makes the zero-budget branch
reachable only when the guard is already false (`loop_cond_false`,
`loop_cond_true_err`, `loop_cond_true_ok` prove that the wrapper behaves
exactly as the unbounded while loop). -/
def loopAux {σ : Type} (cfg : SessionCfg σ) :
    Nat → LoopSt σ → Except (String × Nat) (LoopSt σ)
  | 0, st => .ok st
  | fuel + 1, st =>
    if loopCond cfg st = true then
      match iter cfg st with
      | .error e => .error e
      | .ok st' => loopAux cfg fuel st'
    else .ok st

/-- The while loop of `_act_core`. -/
def loop {σ : Type} (cfg : SessionCfg σ) (st : LoopSt σ) :
    Except (String × Nat) (LoopSt σ) :=
  loopAux cfg (cfg.maxSteps - st.steps) st

/-- The result object assembled by `_act_core` (the fields the claims
speak about; `wall_time_sec`, `logs_dir` and the metadata entries of
`details` carry no contract here). -/
structure ActResultM where
  success : Bool
  reward : Rat
  steps : Nat
  failure_type : Option String
  message : Option String

/-- The success-path result: `success = (reward_final > 0.0)`. -/
def mkResult {σ : Type} (st : LoopSt σ) : ActResultM :=
  { success := decide (0 < st.reward_final)
    reward := st.reward_final
    steps := st.steps
    failure_type := none
    message := none }

/-- The body of the session-scope `try`: environment reset (its outcome is
the parameter `reset`, with step counter 0 at a raise there), then the
interaction loop from the initial state, whose frame 0 is the reset
observation's screenshot. -/
def session_outcome {σ : Type} (cfg : SessionCfg σ)
    (reset : Except String EnvObs) (s0 : σ) :
    Except (String × Nat) (LoopSt σ) :=
  match reset with
  | .error e => .error (e, 0)
  | .ok obs0 =>
    loop cfg
      { steps := 0
        obs := obs0
        done := false
        reward_final := 0
        envSt := s0
        envCalls := 0
        frames := (save_frame cfg.dec 0 obs0.screenshot_b64).toList
        trace := [] }

/-- Embedding of `_act_core` at session scope: every exception raised during reset or
the loop is caught and classified into a failure result with
`success=False, reward=0.0`; otherwise the success-path result is built.
The function is total: no exception escapes. -/
def act_core {σ : Type} (cfg : SessionCfg σ) (reset : Except String EnvObs)
    (s0 : σ) : ActResultM :=
  match session_outcome cfg reset s0 with
  | .ok st => mkResult st
  | .error e =>
    { success := false
      reward := 0
      steps := e.2
      failure_type := some (classify_failure e.1)
      message := some e.1 }

/-- The candidates of a shuffled list that survive the runner's filters, in
order: what mode=random scans and appends from. -/
def survivors (cfgOf : TaskPair → TaskCfg) (skipG skipP : Bool)
    (l : List TaskPair) : List TaskPair :=
  l.filter (fun q => !(should_skip (cfgOf q) q.1 skipG skipP).1)

/-! ### Concrete instances used by witnesses and counterexamples -/

/-- A concrete observation whose screenshot payload decodes. -/
def demoObs : EnvObs :=
  { screenshot_b64 := some "GOOD", a11y_tree := none, width := none,
    height := none }

/-- A concrete stand-in base64 decoder: only `"GOOD"` decodes. -/
def demoDec : String → Option (List Nat) :=
  fun s => if s = "GOOD" then some [1] else none

/-- A concrete environment whose calls always succeed with reward 0. -/
def demoEnv : EnvModel Unit :=
  { wait := fun s _ => .ok (s, demoObs, 0, false)
    step := fun s _ _ => .ok (s, demoObs, 0, false) }

/-- A white agent directive `{special, DONE}`. -/
def demoActionDone : WhiteAgentAction :=
  { type := "special", code := none, name := some "DONE", pause := 0.5 }

/-- A concrete session whose white agent always answers DONE. -/
def demoCfg : SessionCfg Unit :=
  { maxSteps := 5, maxSeconds := 100, elapsed := fun _ => 0,
    white := fun _ _ => .ok demoActionDone, env := demoEnv, dec := demoDec }

/-- The loop state right after reset in the demo session. -/
def demoSt : LoopSt Unit :=
  { steps := 0, obs := demoObs, done := false, reward_final := 0, envSt := (),
    envCalls := 0, frames := [(0, [1])], trace := [] }

/-- The loop state after the demo session's first (DONE) iteration. -/
def demoStDone : LoopSt Unit :=
  { steps := 1, obs := demoObs, done := true, reward_final := 0, envSt := (),
    envCalls := 0, frames := [(0, [1]), (1, [1])],
    trace := [{ t := 1, action := demoActionDone, reward := 0, done := true }] }

/-- A trivial example-config loader for sampler witnesses. -/
def demoCfgOf : TaskPair → TaskCfg := fun _ => { setup := [], config := [] }

/-! ### Helper lemmas: the loop wrapper behaves as the unbounded while loop -/

theorem iter_steps {σ : Type} {cfg : SessionCfg σ} {st st' : LoopSt σ}
    (h : iter cfg st = .ok st') : st'.steps = st.steps + 1 := by
  simp only [iter] at h
  split at h
  · exact absurd h (by simp)
  · split at h
    · exact absurd h (by simp)
    · simp only [Except.ok.injEq] at h
      rw [← h]

theorem loopCond_lt {σ : Type} {cfg : SessionCfg σ} {st : LoopSt σ}
    (h : loopCond cfg st = true) : st.steps < cfg.maxSteps := by
  simp only [loopCond, Bool.and_eq_true, decide_eq_true_eq] at h
  exact h.1.1

theorem loop_cond_false {σ : Type} {cfg : SessionCfg σ} {st : LoopSt σ}
    (h : loopCond cfg st = false) : loop cfg st = .ok st := by
  unfold loop
  cases cfg.maxSteps - st.steps with
  | zero => rfl
  | succ n => simp [loopAux, h]

theorem loop_cond_true_err {σ : Type} {cfg : SessionCfg σ} {st : LoopSt σ}
    {e : String × Nat} (h : loopCond cfg st = true)
    (hi : iter cfg st = .error e) : loop cfg st = .error e := by
  have hlt := loopCond_lt h
  unfold loop
  obtain ⟨n, hn⟩ : ∃ n, cfg.maxSteps - st.steps = n + 1 :=
    ⟨cfg.maxSteps - st.steps - 1, by omega⟩
  rw [hn]
  simp [loopAux, h, hi]

theorem loop_cond_true_ok {σ : Type} {cfg : SessionCfg σ} {st st' : LoopSt σ}
    (h : loopCond cfg st = true) (hi : iter cfg st = .ok st') :
    loop cfg st = loop cfg st' := by
  have hlt := loopCond_lt h
  have hs := iter_steps hi
  unfold loop
  obtain ⟨n, hn⟩ : ∃ n, cfg.maxSteps - st.steps = n + 1 :=
    ⟨cfg.maxSteps - st.steps - 1, by omega⟩
  rw [hn]
  have hn' : cfg.maxSteps - st'.steps = n := by omega
  rw [hn']
  simp [loopAux, h, hi]

theorem loopAux_steps_le {σ : Type} (cfg : SessionCfg σ) :
    ∀ (fuel : Nat) (st st' : LoopSt σ), loopAux cfg fuel st = .ok st' →
      st'.steps ≤ max cfg.maxSteps st.steps := by
  intro fuel
  induction fuel with
  | zero =>
    intro st st' h
    injection h with h2
    rw [← h2]
    exact le_max_right _ _
  | succ n ih =>
    intro st st' h
    by_cases hc : loopCond cfg st = true
    · have hlt := loopCond_lt hc
      simp only [loopAux, if_pos hc] at h
      cases hi : iter cfg st with
      | error e => rw [hi] at h; exact absurd h (by simp)
      | ok st'' =>
        rw [hi] at h
        have hs := iter_steps hi
        have hle := ih st'' st' h
        have hmax : max cfg.maxSteps st''.steps = cfg.maxSteps := by
          rw [hs]; omega
        rw [hmax] at hle
        exact le_trans hle (le_max_left _ _)
    · simp only [loopAux, if_neg hc] at h
      injection h with h2
      rw [← h2]
      exact le_max_right _ _

theorem loop_steps_le {σ : Type} {cfg : SessionCfg σ} {st st' : LoopSt σ}
    (h : loop cfg st = .ok st') : st'.steps ≤ max cfg.maxSteps st.steps :=
  loopAux_steps_le cfg _ st st' h

/-- The dispatch of a DONE or FAIL special directive: `done=true`,
`reward=0.0`, the observation, the environment state and the ghost
environment-call counter are untouched. -/
theorem dispatch_done_fail {σ : Type} {cfg : SessionCfg σ} {st : LoopSt σ}
    {act : WhiteAgentAction} (ht : act.type = "special")
    (hn : strUpper (act.name.getD "") = "DONE" ∨
      strUpper (act.name.getD "") = "FAIL") :
    dispatch cfg st act = .ok (st.envSt, st.obs, 0, true, st.envCalls) := by
  rcases hn with h | h <;>
    simp [dispatch, ht, h]

/-- One full iteration on a DONE or FAIL directive, explicitly. -/
theorem iter_done_fail {σ : Type} {cfg : SessionCfg σ} {st : LoopSt σ}
    {act : WhiteAgentAction}
    (hw : cfg.white (st.steps + 1) st.obs = .ok act)
    (ht : act.type = "special")
    (hn : strUpper (act.name.getD "") = "DONE" ∨
      strUpper (act.name.getD "") = "FAIL") :
    iter cfg st = .ok
      { steps := st.steps + 1
        obs := st.obs
        done := true
        reward_final := 0
        envSt := st.envSt
        envCalls := st.envCalls
        frames := st.frames ++
          (save_frame cfg.dec (st.steps + 1) st.obs.screenshot_b64).toList
        trace := st.trace ++
          [{ t := st.steps + 1, action := logged_action act, reward := 0,
             done := true }] } := by
  simp only [iter, hw, dispatch_done_fail ht hn, if_true]

/-- The collection loop of mode=random equals: filter the shuffled list by
the skip predicate, then take the first `k` (for positive `k`). -/
theorem collect_runnable_eq (cfgOf : TaskPair → TaskCfg) (skipG skipP : Bool) :
    ∀ (k : Nat) (l : List TaskPair), k ≠ 0 →
      collect_runnable cfgOf skipG skipP k l =
        (survivors cfgOf skipG skipP l).take k := by
  intro k l
  induction l generalizing k with
  | nil => intro _; simp [collect_runnable, survivors]
  | cons q rest ih =>
    intro hk
    by_cases hs : (should_skip (cfgOf q) q.1 skipG skipP).1 = true
    · simp [collect_runnable, hs, survivors, ih k hk]
    · have hs' : (should_skip (cfgOf q) q.1 skipG skipP).1 = false := by
        simpa using hs
      by_cases h1 : k ≤ 1
      · have hk1 : k = 1 := by omega
        subst hk1
        simp [collect_runnable, hs', survivors]
      · obtain ⟨m, rfl⟩ : ∃ m, k = m + 1 := ⟨k - 1, by omega⟩
        have hm : m ≠ 0 := by omega
        simp [collect_runnable, hs', h1, survivors, ih m hm]

/-! ### Claim theorems -/

/-- C2 (amended): the runner's `_pairs_from_meta` flattens the corpus
mapping into a candidate list sorted lexically by domain then id, the list
contains exactly the mapping's (domain, id) pairs, and it is independent of
the corpus file's own ordering: any reordering of the domains and of each
domain's id list yields the same flattened list.  (The green app's own
`_choose_osworld_task` does not sort; see the counterexample.) -/
theorem pairs_from_meta_sorted_canonical (meta meta' : Meta)
    (hnd : (meta.map Prod.fst).Nodup)
    (hk : (meta.map Prod.fst).Perm (meta'.map Prod.fst))
    (hi : ∀ d, (lookupIds meta d).Perm (lookupIds meta' d)) :
    List.Sorted pairLe (pairs_from_meta meta) ∧
    pairs_from_meta meta = pairs_from_meta meta' ∧
    (∀ p : TaskPair, p ∈ pairs_from_meta meta ↔
      p.1 ∈ meta.map Prod.fst ∧ p.2 ∈ lookupIds meta p.1) := by
  refine ⟨?_, ?_, ?_⟩
  · unfold pairs_from_meta
    rw [List.Sorted, List.pairwise_flatMap]
    constructor
    · intro d _
      rw [List.pairwise_map]
      have hs : List.Sorted (· ≤ ·) ((lookupIds meta d).insertionSort (· ≤ ·)) :=
        List.sorted_insertionSort _ _
      exact hs.imp (fun h => Or.inr ⟨rfl, h⟩)
    · have hkeys : List.Sorted (· ≤ ·)
          ((meta.map Prod.fst).insertionSort (· ≤ ·)) :=
        List.sorted_insertionSort _ _
      have hnd' : ((meta.map Prod.fst).insertionSort (· ≤ ·)).Nodup :=
        (List.perm_insertionSort _ _).nodup_iff.mpr hnd
      have hlt : List.Pairwise (· < ·)
          ((meta.map Prod.fst).insertionSort (· ≤ ·)) :=
        (hkeys.and hnd').imp (fun h => lt_of_le_of_ne h.1 h.2)
      refine hlt.imp ?_
      intro d1 d2 h12 x hx y hy
      obtain ⟨ex1, _, rfl⟩ := List.mem_map.1 hx
      obtain ⟨ex2, _, rfl⟩ := List.mem_map.1 hy
      exact Or.inl h12
  · have hkeysEq : (meta.map Prod.fst).insertionSort (· ≤ ·) =
        (meta'.map Prod.fst).insertionSort (· ≤ ·) :=
      List.eq_of_perm_of_sorted
        ((List.perm_insertionSort _ _).trans
          (hk.trans (List.perm_insertionSort _ _).symm))
        (List.sorted_insertionSort _ _) (List.sorted_insertionSort _ _)
    have hidsEq : (fun d => ((lookupIds meta d).insertionSort (· ≤ ·)).map
          (fun ex => (d, ex))) =
        (fun d => ((lookupIds meta' d).insertionSort (· ≤ ·)).map
          (fun ex => (d, ex))) := by
      funext d
      have : (lookupIds meta d).insertionSort (· ≤ ·) =
          (lookupIds meta' d).insertionSort (· ≤ ·) :=
        List.eq_of_perm_of_sorted
          ((List.perm_insertionSort _ _).trans
            ((hi d).trans (List.perm_insertionSort _ _).symm))
          (List.sorted_insertionSort _ _) (List.sorted_insertionSort _ _)
      rw [this]
    unfold pairs_from_meta
    rw [hkeysEq, hidsEq]
  · intro p
    simp only [pairs_from_meta, List.mem_flatMap, List.mem_insertionSort,
      List.mem_map]
    constructor
    · rintro ⟨d, hd, ex, hex, rfl⟩
      exact ⟨hd, hex⟩
    · rintro ⟨h1, h2⟩
      exact ⟨p.1, h1, p.2, h2, rfl⟩

/-- C2 (counterexample): the green app's `_choose_osworld_task` flattens the
mapping in the corpus file's own order: for the mapping {b: [x], a: [y]} the
candidate list is [(b, x), (a, y)], which is not sorted lexically by domain,
and reordering the corpus file changes the candidate list. -/
theorem app_candidates_unsorted_cex :
    app_candidates [("b", ["x"]), ("a", ["y"])] = [("b", "x"), ("a", "y")] ∧
    ¬ List.Sorted pairLe (app_candidates [("b", ["x"]), ("a", ["y"])]) ∧
    app_candidates [("b", ["x"]), ("a", ["y"])] ≠
      app_candidates [("a", ["y"]), ("b", ["x"])] := by
  have h1 : app_candidates [("b", ["x"]), ("a", ["y"])] =
      [("b", "x"), ("a", "y")] := by rfl
  have h2 : app_candidates [("a", ["y"]), ("b", ["x"])] =
      [("a", "y"), ("b", "x")] := by rfl
  refine ⟨h1, ?_, ?_⟩
  · rw [h1]
    intro hs
    have hrel := List.rel_of_sorted_cons hs ("a", "y") (by simp)
    rcases hrel with h | h
    · rw [String.lt_iff_toList_lt] at h
      exact absurd h (by decide)
    · exact absurd h.1 (by decide)
  · rw [h1, h2]
    intro h
    injection h with h3 h4
    injection h3 with h5 h6
    exact absurd h5 (by decide)

/-- C1: random-mode task selection is deterministic.  Both selection
procedures — the runner's mode=random and the green app's
`_choose_osworld_task` — are pure functions of the corpus snapshot
(`meta` together with the example loader `cfgOf`), the seed, `k`, and the
filter switches; the seeded stdlib PRNG is itself a deterministic function
of the seed (the parameters `shuffle` and `choice`).  Two invocations with
identical inputs therefore return the same ordered result. -/
theorem random_select_deterministic
    (cfgOf : TaskPair → TaskCfg) (shuffle : Int → List TaskPair → List TaskPair)
    (choice : Option Int → Nat → Nat)
    (m₁ m₂ : Meta) (s₁ s₂ : Int) (k₁ k₂ : Nat) (g₁ g₂ p₁ p₂ : Bool)
    (os₁ os₂ : Option Int)
    (hm : m₁ = m₂) (hs : s₁ = s₂) (hk : k₁ = k₂) (hg : g₁ = g₂) (hp : p₁ = p₂)
    (hos : os₁ = os₂) :
    random_mode_select cfgOf shuffle m₁ s₁ k₁ g₁ p₁ =
      random_mode_select cfgOf shuffle m₂ s₂ k₂ g₂ p₂ ∧
    choose_osworld_task choice os₁ g₁ m₁ = choose_osworld_task choice os₂ g₂ m₂ := by
  subst hm hs hk hg hp hos
  exact ⟨rfl, rfl⟩

/-- C1 witness at a concrete corpus, seed and k. -/
theorem random_select_deterministic_witness :
    random_mode_select demoCfgOf (fun _ l => l) [("a", ["1"])] 7 1 false false =
      random_mode_select demoCfgOf (fun _ l => l) [("a", ["1"])] 7 1 false false ∧
    choose_osworld_task (fun _ _ => 0) (some 7) false [("a", ["1"])] =
      choose_osworld_task (fun _ _ => 0) (some 7) false [("a", ["1"])] :=
  random_select_deterministic demoCfgOf (fun _ l => l) (fun _ _ => 0)
    [("a", ["1"])] [("a", ["1"])] 7 7 1 1 false false false false
    (some 7) (some 7) rfl rfl rfl rfl rfl rfl

/-- Characterization of the runner's random mode (positive `k`): the result
is `take k` of the filter-survivors of the shuffled canonical list, and the
selection errors exactly when no candidate at all survives. -/
theorem random_mode_select_characterization (cfgOf : TaskPair → TaskCfg)
    (shuffle : Int → List TaskPair → List TaskPair) (meta : Meta) (seed : Int)
    (k : Nat) (g p : Bool) (hk : k ≠ 0) :
    random_mode_select cfgOf shuffle meta seed k g p =
      (if (survivors cfgOf g p (shuffle seed (pairs_from_meta meta))).isEmpty
       then .error "After applying filters, no runnable tasks remain in this slice."
       else .ok ((survivors cfgOf g p (shuffle seed (pairs_from_meta meta))).take k)) := by
  simp only [random_mode_select, if_neg hk,
    collect_runnable_eq cfgOf g p k (shuffle seed (pairs_from_meta meta)) hk]
  cases hsv : survivors cfgOf g p (shuffle seed (pairs_from_meta meta)) with
  | nil => simp
  | cons a l =>
    obtain ⟨m, rfl⟩ : ∃ m, k = m + 1 := ⟨k - 1, by omega⟩
    simp

/-- C8 (amended): in the runner's random mode (positive `k`), candidates
surviving the filters are appended in shuffled order until `k` are collected
or the list is exhausted — i.e. the result is `take k` of the survivors —
and the selection fails (with no partial result) exactly when no candidate
at all survives; when between 1 and k-1 candidates survive, the partial
list of all survivors is returned rather than an error. -/
theorem collect_until_k_or_exhausted (cfgOf : TaskPair → TaskCfg)
    (shuffle : Int → List TaskPair → List TaskPair) (meta : Meta) (seed : Int)
    (k : Nat) (g p : Bool) (hk : k ≠ 0) :
    random_mode_select cfgOf shuffle meta seed k g p =
      (if (survivors cfgOf g p (shuffle seed (pairs_from_meta meta))).isEmpty
       then .error "After applying filters, no runnable tasks remain in this slice."
       else .ok ((survivors cfgOf g p (shuffle seed (pairs_from_meta meta))).take k)) :=
  random_mode_select_characterization cfgOf shuffle meta seed k g p hk

/-- C8 (counterexample to the claim as stated): with the corpus {a: [1]}
and k=2, only one candidate survives filtering (fewer than k), yet the
selection does not fail: it returns the partial result [(a, 1)]. -/
theorem insufficient_candidates_cex :
    (survivors demoCfgOf false false
        (pairs_from_meta [("a", ["1"])])).length = 1 ∧
    random_mode_select demoCfgOf (fun _ l => l) [("a", ["1"])] 0 2 false false =
      .ok [("a", "1")] := by
  constructor
  · rfl
  · rfl

/-- C7 (amended): in the runner's random mode with the gdrive filter on, no
selected element requires the disallowed cloud-drive resource; in the green
app's random selection the filter is only best-effort: the selected task
avoids the gdrive test whenever at least one candidate avoids it, but when
every candidate references gdrive the filter is skipped entirely (see the
counterexample). -/
theorem nogdrive_exclusion (cfgOf : TaskPair → TaskCfg)
    (shuffle : Int → List TaskPair → List TaskPair) (meta : Meta) (seed : Int)
    (k : Nat) (noproxy : Bool) (pairs : List TaskPair)
    (h : random_mode_select cfgOf shuffle meta seed k true noproxy = .ok pairs) :
    (∀ p ∈ pairs, requires_gdrive (cfgOf p) p.1 = false) ∧
    (∀ (choice : Option Int → Nat → Nat) (os : Option Int) (m : Meta)
       (q : TaskPair),
      (∃ c ∈ app_candidates m, app_is_gdrive c = false) →
      choose_osworld_task choice os true m = .ok q →
      app_is_gdrive q = false) := by
  constructor
  · intro p hp
    by_cases hk : k = 0
    · rw [random_mode_select, if_pos hk] at h
      exact absurd h (by simp)
    · rw [random_mode_select_characterization cfgOf shuffle meta seed k true noproxy hk] at h
      split at h
      · exact absurd h (by simp)
      · injection h with h2
        rw [← h2] at hp
        have hmem : p ∈ survivors cfgOf true noproxy
            (shuffle seed (pairs_from_meta meta)) :=
          List.mem_of_mem_take hp
        have hkeep := (List.mem_filter.1 hmem).2
        by_contra hreq
        have hreq' : requires_gdrive (cfgOf p) p.1 = true := by
          simpa using hreq
        simp [should_skip, hreq'] at hkeep
  · rintro choice os m q ⟨c, hc, hcg⟩ hq
    have hne : (app_candidates m).isEmpty = false := by
      cases hcand : app_candidates m with
      | nil => rw [hcand] at hc; exact absurd hc (by simp)
      | cons a l => rfl
    simp only [choose_osworld_task] at hq
    rw [hne] at hq
    simp only [Bool.false_eq_true, if_false] at hq
    have hfilne : (app_candidates m).filter (fun p => !app_is_gdrive p) ≠ [] :=
      List.ne_nil_of_mem (List.mem_filter.2 ⟨hc, by simp [hcg]⟩)
    simp only [app_apply_nogdrive, if_pos rfl, List.isEmpty_eq_true] at hq
    rw [if_neg hfilne] at hq
    simp only [if_true] at hq
    injection hq with h2
    set fl := (app_candidates m).filter (fun p => !app_is_gdrive p) with hfl
    have hlen : 0 < fl.length := List.length_pos.2 hfilne
    have hidx : choice os fl.length % fl.length < fl.length :=
      Nat.mod_lt _ hlen
    have hmem : fl.getD (choice os fl.length % fl.length) ("", "") ∈ fl := by
      rw [List.getD_eq_getElem?_getD, List.getElem?_eq_getElem hidx]
      exact List.getElem_mem hidx
    rw [h2] at hmem
    have := (List.mem_filter.1 hmem).2
    simpa using this

/-- C7 (counterexample to the claim as stated): for the corpus
{gdrive: [x]} every candidate references gdrive, so the app's best-effort
filter falls back to the unfiltered list and the selection returns a task
whose domain name satisfies the exclude predicate (both the app's own
substring test and the runner's default `_requires_gdrive` predicate). -/
theorem nogdrive_filter_cex :
    choose_osworld_task (fun _ _ => 0) none true [("gdrive", ["x"])] =
      .ok ("gdrive", "x") ∧
    app_is_gdrive ("gdrive", "x") = true ∧
    requires_gdrive (demoCfgOf ("gdrive", "x")) "gdrive" = true := by
  refine ⟨rfl, ?_, rfl⟩
  rfl

/-- C2 witness: a two-domain corpus given in reversed order flattens to the
same sorted candidate list. -/
theorem pairs_from_meta_sorted_canonical_witness :
    List.Sorted pairLe (pairs_from_meta [("b", ["2"]), ("a", ["1"])]) ∧
    pairs_from_meta [("b", ["2"]), ("a", ["1"])] =
      pairs_from_meta [("a", ["1"]), ("b", ["2"])] ∧
    (∀ p : TaskPair, p ∈ pairs_from_meta [("b", ["2"]), ("a", ["1"])] ↔
      p.1 ∈ ([("b", ["2"]), ("a", ["1"])] : Meta).map Prod.fst ∧
      p.2 ∈ lookupIds [("b", ["2"]), ("a", ["1"])] p.1) :=
  pairs_from_meta_sorted_canonical [("b", ["2"]), ("a", ["1"])]
    [("a", ["1"]), ("b", ["2"])] (by decide) (List.Perm.swap "a" "b" [])
    (fun d => by
      by_cases h1 : d = "b"
      · subst h1
        exact List.Perm.refl _
      · by_cases h2 : d = "a"
        · subst h2
          exact List.Perm.refl _
        · have hb : (("b" : String) == d) = false :=
            beq_eq_false_iff_ne.2 (fun hh => h1 hh.symm)
          have ha : (("a" : String) == d) = false :=
            beq_eq_false_iff_ne.2 (fun hh => h2 hh.symm)
          simp [lookupIds, List.find?_cons, hb, ha])

/-- C7 witness: a corpus with one non-gdrive task selects it under the
filter; the app-side guarantee instantiated. -/
theorem nogdrive_exclusion_witness :
    (∀ p ∈ [(("a" : String), ("1" : String))],
      requires_gdrive (demoCfgOf p) p.1 = false) ∧
    (∀ (choice : Option Int → Nat → Nat) (os : Option Int) (m : Meta)
       (q : TaskPair),
      (∃ c ∈ app_candidates m, app_is_gdrive c = false) →
      choose_osworld_task choice os true m = .ok q →
      app_is_gdrive q = false) :=
  nogdrive_exclusion demoCfgOf (fun _ l => l) [("a", ["1"])] 0 1 false
    [("a", "1")] (by rfl)

/-- C8 witness: the characterization instantiated at a concrete corpus with
k larger than the survivor count. -/
theorem collect_until_k_or_exhausted_witness :
    random_mode_select demoCfgOf (fun _ l => l) [("a", ["1"])] 0 2 false false =
      (if (survivors demoCfgOf false false
            (pairs_from_meta [("a", ["1"])])).isEmpty
       then .error "After applying filters, no runnable tasks remain in this slice."
       else .ok ((survivors demoCfgOf false false
            (pairs_from_meta [("a", ["1"])])).take 2)) :=
  collect_until_k_or_exhausted demoCfgOf (fun _ l => l) [("a", ["1"])] 0 2
    false false (by decide)

/-- C3: every exception raised during environment reset or the interaction
loop is caught at session scope; the caller always receives a well-formed
result with `success=false`, `reward=0.0` and a `failure_type` that is
exactly one of env_setup, white_error, unauthorized, runtime_error — with
runtime_error whenever no known phrase occurs in the message text.
(`act_core` is a total function: no exception escapes its boundary.) -/
theorem act_core_catches_all {σ : Type} (cfg : SessionCfg σ)
    (reset : Except String EnvObs) (s0 : σ) (e : String × Nat)
    (h : session_outcome cfg reset s0 = .error e) :
    act_core cfg reset s0 =
      { success := false, reward := 0, steps := e.2,
        failure_type := some (classify_failure e.1), message := some e.1 } ∧
    (classify_failure e.1 = "env_setup" ∨ classify_failure e.1 = "white_error" ∨
     classify_failure e.1 = "unauthorized" ∨
     classify_failure e.1 = "runtime_error") ∧
    (known_phrase_hit e.1 = false → classify_failure e.1 = "runtime_error") := by
  refine ⟨?_, ?_, ?_⟩
  · unfold act_core
    rw [h]
  · simp only [classify_failure]
    split
    · exact Or.inl rfl
    · split
      · exact Or.inr (Or.inl rfl)
      · split
        · exact Or.inr (Or.inr (Or.inl rfl))
        · exact Or.inr (Or.inr (Or.inr rfl))
  · intro hmiss
    simp only [known_phrase_hit, Bool.or_eq_false_iff] at hmiss
    obtain ⟨⟨⟨⟨h1, h2⟩, h3⟩, h4⟩, h5⟩ := hmiss
    simp [classify_failure, h1, h2, h3, h4, h5]

/-- C3 witness: a session whose reset raises "boom". -/
theorem act_core_catches_all_witness :
    act_core demoCfg (.error "boom") () =
      { success := false, reward := 0, steps := 0,
        failure_type := some (classify_failure "boom"),
        message := some "boom" } ∧
    (classify_failure "boom" = "env_setup" ∨
     classify_failure "boom" = "white_error" ∨
     classify_failure "boom" = "unauthorized" ∨
     classify_failure "boom" = "runtime_error") ∧
    (known_phrase_hit "boom" = false →
      classify_failure "boom" = "runtime_error") :=
  act_core_catches_all demoCfg (.error "boom") () ("boom", 0) rfl

/-- C4: the interaction loop executes at most `maxSteps` iterations (each
iteration increments `steps` by one, so `steps` counts iterations), and no
new iteration begins — the loop returns its state untouched — once `done`
is true, or elapsed time is ≥ `maxSeconds`, or `steps` has reached
`maxSteps`. -/
theorem loop_budget_respect {σ : Type} (cfg : SessionCfg σ)
    (st st' : LoopSt σ) :
    (loop cfg st = .ok st' → st'.steps ≤ max cfg.maxSteps st.steps) ∧
    ((st.done = true ∨ cfg.maxSeconds ≤ cfg.elapsed st.steps ∨
      cfg.maxSteps ≤ st.steps) → loop cfg st = .ok st) := by
  constructor
  · exact loop_steps_le
  · intro h
    apply loop_cond_false
    rcases h with h | h | h
    · simp [loopCond, h]
    · have hnl : ¬ cfg.elapsed st.steps < cfg.maxSeconds := not_lt.2 h
      simp [loopCond, hnl]
    · have hnl : ¬ st.steps < cfg.maxSteps := not_lt.2 h
      simp [loopCond, hnl]

/-- C4 witness: the demo session stops after its first iteration. -/
theorem loop_budget_respect_witness :
    demoStDone.steps ≤ max demoCfg.maxSteps demoSt.steps ∧
    loop demoCfg demoStDone = .ok demoStDone :=
  ⟨(loop_budget_respect demoCfg demoSt demoStDone).1 (by rfl),
   (loop_budget_respect demoCfg demoStDone demoStDone).2 (Or.inl rfl)⟩

/-- C5: on a DONE or FAIL special directive the orchestrator sets
`done=true` and `reward=0.0` with no environment call (the ghost
environment-call counter is unchanged), the loop exits after that
iteration, and the session result then has reward 0.0 and success false. -/
theorem done_fail_terminates {σ : Type} (cfg : SessionCfg σ) (st : LoopSt σ)
    (act : WhiteAgentAction)
    (hcond : loopCond cfg st = true)
    (hw : cfg.white (st.steps + 1) st.obs = .ok act)
    (ht : act.type = "special")
    (hn : strUpper (act.name.getD "") = "DONE" ∨
      strUpper (act.name.getD "") = "FAIL") :
    ∃ st', iter cfg st = .ok st' ∧ st'.done = true ∧ st'.reward_final = 0 ∧
      st'.envCalls = st.envCalls ∧ loop cfg st = .ok st' ∧
      (mkResult st').reward = 0 ∧ (mkResult st').success = false := by
  refine ⟨_, iter_done_fail hw ht hn, rfl, rfl, rfl, ?_, rfl, ?_⟩
  · have h1 := loop_cond_true_ok hcond (iter_done_fail hw ht hn)
    rw [h1]
    apply loop_cond_false
    simp [loopCond]
  · simp [mkResult]

/-- C5 witness: the demo session's white agent answers DONE at step 1. -/
theorem done_fail_terminates_witness :
    ∃ st', iter demoCfg demoSt = .ok st' ∧ st'.done = true ∧
      st'.reward_final = 0 ∧ st'.envCalls = demoSt.envCalls ∧
      loop demoCfg demoSt = .ok st' ∧
      (mkResult st').reward = 0 ∧ (mkResult st').success = false :=
  done_fail_terminates demoCfg demoSt demoActionDone (by decide) rfl rfl
    (Or.inl rfl)

/-- C6: every completed loop iteration appends exactly one StepRecord,
whose step index is the iteration's index `st.steps + 1`; the frame saved
during that iteration is keyed by the same index (it is appended to the
frame store under that index exactly when its payload decodes); and both
writes are part of the iteration's state, which is what the loop guard is
next evaluated on. -/
theorem step_record_per_iteration {σ : Type} (cfg : SessionCfg σ)
    (st st' : LoopSt σ) (h : iter cfg st = .ok st') :
    (∃ r : StepRec, st'.trace = st.trace ++ [r] ∧ r.t = st.steps + 1) ∧
    st'.frames = st.frames ++
      (save_frame cfg.dec (st.steps + 1) st'.obs.screenshot_b64).toList ∧
    (loopCond cfg st = true → loop cfg st = loop cfg st') := by
  have hcopy := h
  simp only [iter] at h
  split at h
  · exact absurd h (by simp)
  · split at h
    · exact absurd h (by simp)
    · simp only [Except.ok.injEq] at h
      subst h
      exact ⟨⟨_, rfl, rfl⟩, rfl, fun hc => loop_cond_true_ok hc hcopy⟩

/-- C6 witness: the demo session's first iteration. -/
theorem step_record_per_iteration_witness :
    (∃ r : StepRec, demoStDone.trace = demoSt.trace ++ [r] ∧
      r.t = demoSt.steps + 1) ∧
    demoStDone.frames = demoSt.frames ++
      (save_frame demoCfg.dec (demoSt.steps + 1)
        demoStDone.obs.screenshot_b64).toList ∧
    (loopCond demoCfg demoSt = true →
      loop demoCfg demoSt = loop demoCfg demoStDone) :=
  step_record_per_iteration demoCfg demoSt demoStDone (by rfl)

/-- C9: `save_frame` is a total function (it never raises); a missing or
empty payload and an undecodable payload each return none; when it returns
none no frame entry is created, while the iteration's StepRecord is still
appended to the trace. -/
theorem save_frame_silent {σ : Type} (dec : String → Option (List Nat)) :
    (∀ i, save_frame dec i none = none) ∧
    (∀ i, save_frame dec i (some "") = none) ∧
    (∀ i s, dec s = none → save_frame dec i (some s) = none) ∧
    (∀ (cfg : SessionCfg σ) (st st' : LoopSt σ), iter cfg st = .ok st' →
      st'.trace.length = st.trace.length + 1 ∧
      (save_frame cfg.dec (st.steps + 1) st'.obs.screenshot_b64 = none →
        st'.frames = st.frames)) := by
  refine ⟨fun i => rfl, fun i => rfl, ?_, ?_⟩
  · intro i s hdec
    simp only [save_frame]
    by_cases hs : s = ""
    · rw [if_pos hs]
    · rw [if_neg hs, hdec]
  · intro cfg st st' h
    simp only [iter] at h
    split at h
    · exact absurd h (by simp)
    · split at h
      · exact absurd h (by simp)
      · simp only [Except.ok.injEq] at h
        subst h
        exact ⟨by simp, fun hnone => by simp [hnone]⟩

/-- C9 witness: missing, empty and undecodable payloads in the demo
session. -/
theorem save_frame_silent_witness :
    save_frame demoDec 1 none = none ∧
    save_frame demoDec 1 (some "") = none ∧
    save_frame demoDec 1 (some "BAD") = none ∧
    (demoStDone.trace.length = demoSt.trace.length + 1 ∧
      (save_frame demoCfg.dec (demoSt.steps + 1)
          demoStDone.obs.screenshot_b64 = none →
        demoStDone.frames = demoSt.frames)) := by
  have h := save_frame_silent (σ := Unit) demoDec
  exact ⟨h.1 1, h.2.1 1, h.2.2.1 1 "BAD" rfl,
    h.2.2.2 demoCfg demoSt demoStDone (by rfl)⟩

/-- C10: an iteration terminated by DONE or FAIL makes no environment call,
so the observation is unchanged and the frame saved under the terminating
step's index re-saves the observation obtained at the previous step (at
reset, for step 1). -/
theorem done_frame_resaves_prev_obs {σ : Type} (cfg : SessionCfg σ)
    (st : LoopSt σ) (act : WhiteAgentAction)
    (hw : cfg.white (st.steps + 1) st.obs = .ok act)
    (ht : act.type = "special")
    (hn : strUpper (act.name.getD "") = "DONE" ∨
      strUpper (act.name.getD "") = "FAIL") :
    ∃ st', iter cfg st = .ok st' ∧ st'.obs = st.obs ∧
      st'.frames = st.frames ++
        (save_frame cfg.dec (st.steps + 1) st.obs.screenshot_b64).toList :=
  ⟨_, iter_done_fail hw ht hn, rfl, rfl⟩

/-- C10 witness: the demo session's DONE iteration re-saves `demoObs`. -/
theorem done_frame_resaves_prev_obs_witness :
    ∃ st', iter demoCfg demoSt = .ok st' ∧ st'.obs = demoSt.obs ∧
      st'.frames = demoSt.frames ++
        (save_frame demoCfg.dec (demoSt.steps + 1)
          demoSt.obs.screenshot_b64).toList :=
  done_frame_resaves_prev_obs demoCfg demoSt demoActionDone rfl rfl
    (Or.inl rfl)

end OSWorldGreen
